import Mathlib

/-!
Shallow embedding of the FILTROECG repository: two MicroPython programs that
sample an ADC at a fixed rate, keep a circular window of the last `N` raw
samples, compute moving-average / median / exponential filters, and print one
record every `SKIP` processed samples.

* `src/FILTROECG.py`  — "flags" variant (variant A): four independent display
  toggles; each filter is computed from the raw window on every sample.
* `src/FILTROSecg.py` — "cascading" variant (variant B): a single mode
  `modo ∈ {1..5}` selects a cascade depth; `salida` is threaded through the
  enabled stages and the final stage's label/value is printed.

Hardware (ADC, Timer, LED), keyboard polling and file persistence are the
external collaborators; the embedding models the pure state transitions of
the main loop, the timer callback, and the keyboard command handling, with
the raw readings and command tokens supplied as an explicit event list.
All sample values are naturals (the ADC yields 12-bit integers, and every
derived quantity in the programs stays a nonnegative integer), so Python's
floor division `//` is `Nat` division.  The float expression in the EMA line
is modelled exactly, in IEEE-754 binary64 arithmetic, via dyadic rationals.
-/

namespace FiltroEcg

/-! ### Configuration constants (both variants) -/

def FS : Nat := 250

def DT_MS : Nat := 1000 / FS

/-- Window size for the moving average / median. -/
def N : Nat := 5

/-- Decimation stride: one record is printed every `SKIP` processed samples. -/
def SKIP : Nat := 10

/-! ### Exact model of the EMA line's float arithmetic

`ema = v if ema is None else int(ALPHA*v + (1-ALPHA)*ema)` with `ALPHA = 0.15`
is evaluated by Python in IEEE-754 binary64 arithmetic.  Every value that
occurs (the constants, the products, the sum) is a nonnegative dyadic
rational in the normal range, so we model a binary64 value as `num / 2^scale`
and each operation as the exact result rounded to 53 significant bits,
round-to-nearest ties-to-even — which is exactly what the hardware does. -/

/-- Nonnegative dyadic rational `num / 2 ^ scale`. -/
structure Dy where
  num : Nat
  scale : Nat
deriving DecidableEq

/-- Rational value of a dyadic number (used only to state facts about it). -/
def Dy.val (x : Dy) : ℚ := (x.num : ℚ) / 2 ^ x.scale

def bitsGo : Nat → Nat → Nat
  | 0, _ => 0
  | fuel + 1, n => if n = 0 then 0 else bitsGo fuel (n / 2) + 1

/-- Bit length of a natural number (`0` for `0`). -/
def bits (n : Nat) : Nat := bitsGo n n

/-- Round `n / 2 ^ d` to the nearest integer, ties to even. -/
def rne (n d : Nat) : Nat :=
  let q := n / 2 ^ d
  let r := n % 2 ^ d
  if 2 * r < 2 ^ d then q
  else if 2 ^ d < 2 * r then q + 1
  else if q % 2 = 0 then q else q + 1

/-- Round a nonnegative dyadic rational to the nearest IEEE-754 binary64
value (53 significant bits, round to nearest, ties to even; the program's
values all lie in the normal, non-overflowing range). -/
def fl64 (x : Dy) : Dy :=
  if x.num = 0 then ⟨0, 0⟩
  else
    let d := bits x.num - 53
    let M := rne x.num d
    ⟨M * 2 ^ (d - x.scale), x.scale - d⟩

/-- Exact sum of two dyadic rationals (IEEE addition is this, then `fl64`). -/
def Dy.add (x y : Dy) : Dy :=
  let s := max x.scale y.scale
  ⟨x.num * 2 ^ (s - x.scale) + y.num * 2 ^ (s - y.scale), s⟩

/-- Python's `int(·)` on a nonnegative float: truncation toward zero. -/
def Dy.trunc (x : Dy) : Nat := x.num / 2 ^ x.scale

/-- The binary64 value of the source literal `ALPHA = 0.15`: the unique
double nearest `3/20` (justified by `ALPHA64_correct` below). -/
def ALPHA64 : Dy := ⟨5404319552844595, 55⟩

/-- The binary64 value of `(1 - ALPHA)` as the program computes it: both
operands are exact doubles, so IEEE subtraction is the exact difference
rounded. -/
def BETA64 : Dy := fl64 ⟨2 ^ 55 - ALPHA64.num, 55⟩

/-- One step of `int(ALPHA*v + (1-ALPHA)*ema)`: each product is the exact
product rounded, the sum is the exact sum rounded, and the result is
truncated toward zero. -/
def emaUpdate (e v : Nat) : Nat :=
  (fl64 ((fl64 ⟨ALPHA64.num * v, ALPHA64.scale⟩).add
         (fl64 ⟨BETA64.num * e, BETA64.scale⟩))).trunc

/-- The full EMA line `ema = v if ema is None else int(...)`. -/
def emaNext (ema : Option Nat) (v : Nat) : Nat :=
  match ema with
  | none => v
  | some e => emaUpdate e v

/-! ### The circular window (both variants, lines `ring[idx] = ...` etc.) -/

/-- The circular-buffer globals `ring`, `idx`, `llen`. -/
structure RingBuf where
  ring : List Nat
  idx : Nat
  llen : Nat
deriving DecidableEq

/-- Initial values: `ring = [0]*N`, `idx = 0`, `llen = 0`. -/
def ringInit : RingBuf := ⟨List.replicate N 0, 0, 0⟩

/-- The lines `ring[idx] = v; idx = (idx + 1) % N; llen = min(llen + 1, N)`. -/
def RingBuf.push (r : RingBuf) (v : Nat) : RingBuf :=
  ⟨r.ring.set r.idx v, (r.idx + 1) % N, min (r.llen + 1) N⟩

/-- The line `window = ring[:llen]`. -/
def RingBuf.window (r : RingBuf) : List Nat := r.ring.take r.llen

/-- The ring state after pushing a whole list of samples, oldest first. -/
def pushAll (xs : List Nat) : RingBuf := xs.foldl RingBuf.push ringInit

/-! ### The three filters as written in the sources -/

/-- The line `avg = sum(window) // llen`. -/
def avgOf (window : List Nat) (llen : Nat) : Nat := window.sum / llen

/-- Python's `sorted`: the ascending sort of the list (insertion sort
computes the same list of values). -/
def pysort (l : List Nat) : List Nat := List.insertionSort (· ≤ ·) l

/-- The line `med = sorted(window)[llen // 2]` (the index is in range once
`llen ≥ 1`, which holds whenever a sample has been processed). -/
def medOf (window : List Nat) (llen : Nat) : Nat := (pysort window).getD (llen / 2) 0

/-! ### Events delivered by the collaborators

A run of either main loop is driven by an interleaving of keyboard lines and
timer-callback firings; each `Ev.sample r` is one callback invocation whose
`adc.read()` returned `r`, consumed by the next loop iteration. -/

inductive Ev where
  | key : String → Ev
  | sample : Nat → Ev

/-- The raw readings of an event list, in order. -/
def samplesOf (evs : List Ev) : List Nat :=
  evs.filterMap fun e =>
    match e with
    | Ev.sample v => some v
    | Ev.key _ => none

/-! ### Variant A: `src/FILTROECG.py` (four display toggles) -/

structure StateA where
  rb : RingBuf
  ema : Option Nat
  valor : Nat
  new : Bool
  count : Nat
  show_raw : Bool
  show_avg : Bool
  show_med : Bool
  show_exp : Bool
deriving DecidableEq

/-- Initial globals of the flags variant (all toggles start off). -/
def initA : StateA :=
  { rb := ringInit, ema := none, valor := 0, new := false, count := 0,
    show_raw := false, show_avg := false, show_med := false, show_exp := false }

/-- The timer ISR `handler`: `valor = adc.read(); new = True`. -/
def handlerA (s : StateA) (reading : Nat) : StateA :=
  { s with valor := reading, new := true }

/-- Keyboard handling: `"1"..."4"` toggle one signal each; anything else
leaves every global unchanged.  (The status line printed after a keystroke
is console feedback, not state.) -/
def cmdA (s : StateA) (c : String) : StateA :=
  if c = "1" then { s with show_raw := !s.show_raw }
  else if c = "2" then { s with show_avg := !s.show_avg }
  else if c = "3" then { s with show_med := !s.show_med }
  else if c = "4" then { s with show_exp := !s.show_exp }
  else s

/-- One pass of the `if new:` block on sample `v`: push into the ring,
compute all three filters, build `datos` from the toggles, bump `count`, and
print (`some` output) only when `count >= SKIP and datos`. -/
def stepA (s : StateA) (v : Nat) : StateA × Option String :=
  let r := s.rb.push v
  let avg := avgOf r.window r.llen
  let med := medOf r.window r.llen
  let ema := emaNext s.ema v
  let datos : List String :=
    (if s.show_raw then ["RAW:" ++ toString v] else []) ++
    (if s.show_avg then ["AVG:" ++ toString avg] else []) ++
    (if s.show_med then ["MED:" ++ toString med] else []) ++
    (if s.show_exp then ["EXP:" ++ toString ema] else [])
  let c := s.count + 1
  if SKIP ≤ c ∧ datos ≠ [] then
    ({ s with rb := r, ema := some ema, new := false, count := 0 },
     some (String.intercalate (" | ") datos))
  else
    ({ s with rb := r, ema := some ema, new := false, count := c }, none)

/-- Run the flags variant's main loop over an event list, collecting the
per-sample emission (`none` = the sample produced no printed record). -/
def runA : StateA → List Ev → StateA × List (Option String)
  | s, [] => (s, [])
  | s, Ev.key c :: es => runA (cmdA s c) es
  | s, Ev.sample v :: es =>
    let s1 := handlerA s v
    let p := stepA s1 s1.valor
    let q := runA p.1 es
    (q.1, p.2 :: q.2)

/-! ### Variant B: `src/FILTROSecg.py` (cascading modes 1..5) -/

structure StateB where
  rb : RingBuf
  ema : Option Nat
  valor : Nat
  new : Bool
  count : Nat
  modo : Nat
deriving DecidableEq

/-- Initial globals of the cascading variant (`modo = 1`). -/
def initB : StateB :=
  { rb := ringInit, ema := none, valor := 0, new := false, count := 0, modo := 1 }

/-- The timer ISR `handler`: `valor = adc.read(); new = True`. -/
def handlerB (s : StateB) (reading : Nat) : StateB :=
  { s with valor := reading, new := true }

/-- Keyboard handling: `if cmd in ["1","2","3","4","5"]: modo = int(cmd)`;
each recognized token sets `modo` to its numeral, any other token leaves
every global unchanged. -/
def cmdB (s : StateB) (c : String) : StateB :=
  if c = "1" then { s with modo := 1 }
  else if c = "2" then { s with modo := 2 }
  else if c = "3" then { s with modo := 3 }
  else if c = "4" then { s with modo := 4 }
  else if c = "5" then { s with modo := 5 }
  else s

/-- The output line built when a record is printed: `RAW:{v}` in mode 1,
`RAW:{v} | {etiqueta}:{salida}` in modes 2–4, `{etiqueta}:{salida}` in
mode 5 (`none` corresponds to no branch of the `if/elif` chain firing,
which is unreachable since `modo` stays in `1..5`). -/
def lineaB (modo v salida : Nat) (etiqueta : String) : Option String :=
  if modo = 1 then some ("RAW:" ++ toString v)
  else if modo = 2 ∨ modo = 3 ∨ modo = 4 then
    some ("RAW:" ++ toString v ++ " | " ++ etiqueta ++ ":" ++ toString salida)
  else if modo = 5 then some (etiqueta ++ ":" ++ toString salida)
  else none

/-- One pass of the `if new:` block on sample `v`: push into the ring, then
the cascade — `salida`/`etiqueta` start as the raw sample and are overwritten
by the average stage (`modo >= 2 or modo == 5`), the median stage
(`modo >= 3 or modo == 5`, computed from the raw `window`), and the EMA stage
(`modo >= 4 or modo == 5`, fed the current `salida`) — then `count` is
bumped and one line is emitted when `count >= SKIP`. -/
def stepB (s : StateB) (v : Nat) : StateB × Option String :=
  let r := s.rb.push v
  let p1 : Nat × String :=
    if 2 ≤ s.modo ∨ s.modo = 5 then (avgOf r.window r.llen, "PROM") else (v, "RAW")
  let p2 : Nat × String :=
    if 3 ≤ s.modo ∨ s.modo = 5 then (medOf r.window r.llen, "MED") else p1
  let q3 : Option Nat × Nat × String :=
    if 4 ≤ s.modo ∨ s.modo = 5 then
      let e := emaNext s.ema p2.1
      (some e, e, "EXP")
    else (s.ema, p2.1, p2.2)
  let c := s.count + 1
  if SKIP ≤ c then
    ({ s with rb := r, ema := q3.1, new := false, count := 0 },
     lineaB s.modo v q3.2.1 q3.2.2)
  else
    ({ s with rb := r, ema := q3.1, new := false, count := c }, none)

/-- Run the cascading variant's main loop over an event list, collecting the
per-sample emission (`none` = the sample produced no printed record). -/
def runB : StateB → List Ev → StateB × List (Option String)
  | s, [] => (s, [])
  | s, Ev.key c :: es => runB (cmdB s c) es
  | s, Ev.sample v :: es =>
    let s1 := handlerB s v
    let p := stepB s1 s1.valor
    let q := runB p.1 es
    (q.1, p.2 :: q.2)

/-! ### Definitions modelled from the spec (for comparison only) -/

/-- Modelled from the spec: the "avg → median cascade" reading of §4.2/§8,
in which the median stage consumes the *output of the moving-average stage*
rather than the raw window — the "cascade median of avg-window": the median
of the window formed by the last up-to-`N` moving-average outputs.  The
sources contain no such computation; this definition exists only to compare
the spec's claimed cascade against what the code does. -/
def specAvgSeq (xs : List Nat) : List Nat :=
  (List.range xs.length).map fun k =>
    let w := (xs.take (k + 1)).drop (k + 1 - N)
    avgOf w w.length

/-- Modelled from the spec (continued): the median of the last up-to-`N`
entries of the moving-average output sequence. -/
def specCascadeMed (xs : List Nat) : Nat :=
  let a := specAvgSeq xs
  let w := a.drop (a.length - N)
  medOf w w.length

/-! ### Definitions used by the invariant proofs and the concrete scenarios -/

/-- The last `min |xs| N` elements of `xs` (all of `xs` before fill-up). -/
def lastW (xs : List Nat) : List Nat := xs.drop (xs.length - N)

/-- The full invariant of the circular buffer after pushing the prefix `xs`. -/
def RingInv (xs : List Nat) (r : RingBuf) : Prop :=
  r.ring.length = N ∧ r.idx = xs.length % N ∧ r.llen = min xs.length N ∧
    (xs.length < N → r.ring = xs ++ List.replicate (N - xs.length) 0) ∧
    (N ≤ xs.length → r.ring.rotate r.idx = lastW xs)

/-- The raw sequence of the spec's §8 concrete scenario (claim C2). -/
def testSeq : List Nat := [100, 120, 110, 130, 90, 105, 115, 95, 100, 120]

/-- A raw sequence whose 10th-sample window separates the raw-window median
from the spec's avg-cascade median (claim C1). -/
def cexSeq : List Nat := [0, 0, 0, 0, 0, 100, 0, 0, 0, 0]

/-! ### The circular buffer realizes a sliding window

After pushing `xs`, the valid prefix `window` is a permutation of the last
`min |xs| N` samples: before fill-up the buffer is the samples so far plus
zero padding, and once full the buffer is the last `N` samples rotated by
the write index. -/

/-- See `ALPHA64`: it really is the correctly rounded binary64 value of the
literal `0.15` — it lies in the binade `[2⁻³, 2⁻²)`, whose doubles form the
`2⁻⁵⁵` grid, it is below `3/20`, and the gap is under half a grid step. -/
theorem ALPHA64_correct :
    (1 : ℚ) / 2 ^ 3 ≤ ALPHA64.val ∧ ALPHA64.val < 1 / 2 ^ 2 ∧
      ALPHA64.val < 3 / 20 ∧ 3 / 20 - ALPHA64.val < 1 / 2 ^ 56 := by
  refine ⟨?_, ?_, ?_, ?_⟩ <;> norm_num [Dy.val, ALPHA64]

lemma set_rotate_succ {α : Type} (l : List α) (i : Nat) (x : α) (h : i < l.length) :
    (l.set i x).rotate ((i + 1) % l.length) = (l.rotate i).tail ++ [x] := by
  have hT : (l.take i).length = i := List.length_take_of_le (Nat.le_of_lt h)
  have hset : l.set i x = l.take i ++ x :: l.drop (i + 1) :=
    List.set_eq_take_cons_drop x h
  have hdropi : l.drop i = l[i] :: l.drop (i + 1) := List.drop_eq_getElem_cons h
  have hrot : l.rotate i = l.drop i ++ l.take i :=
    List.rotate_eq_drop_append_take (Nat.le_of_lt h)
  have htail : (l.rotate i).tail = l.drop (i + 1) ++ l.take i := by
    rw [hrot, hdropi]; rfl
  rcases Nat.lt_or_ge (i + 1) l.length with hlt | hge
  · have hmod : (i + 1) % l.length = i + 1 := Nat.mod_eq_of_lt hlt
    have hle : i + 1 ≤ (l.set i x).length := by
      rw [List.length_set]; exact Nat.le_of_lt hlt
    rw [hmod, List.rotate_eq_drop_append_take hle, hset]
    have h1 : (l.take i ++ x :: l.drop (i + 1)).drop (i + 1) = l.drop (i + 1) := by
      have : l.take i ++ x :: l.drop (i + 1) = (l.take i ++ [x]) ++ l.drop (i + 1) := by
        simp
      rw [this, List.drop_left']
      simp [hT]
    have h2 : (l.take i ++ x :: l.drop (i + 1)).take (i + 1) = l.take i ++ [x] := by
      have : l.take i ++ x :: l.drop (i + 1) = (l.take i ++ [x]) ++ l.drop (i + 1) := by
        simp
      rw [this, List.take_left']
      simp [hT]
    rw [h1, h2, htail]
    simp
  · have heq : i + 1 = l.length := Nat.le_antisymm h hge
    have hmod : (i + 1) % l.length = 0 := by rw [heq]; exact Nat.mod_self _
    have hdrop_nil : l.drop (i + 1) = [] := by
      rw [heq]; exact List.drop_length l
    rw [hmod, List.rotate_zero, hset, htail, hdrop_nil]
    simp

lemma ringInv_nil : RingInv [] ringInit := by
  refine ⟨by simp [ringInit], by simp [ringInit], by simp [ringInit], ?_, ?_⟩
  · intro _; simp [ringInit]
  · intro h; simp [N] at h

lemma ringInv_push {xs : List Nat} {r : RingBuf} (h : RingInv xs r) (x : Nat) :
    RingInv (xs ++ [x]) (r.push x) := by
  obtain ⟨hlen, hidx, hllen, hpre, hfull⟩ := h
  have hN : N = 5 := rfl
  refine ⟨by simp [RingBuf.push, hlen], ?_, ?_, ?_, ?_⟩
  · simp only [RingBuf.push, List.length_append, List.length_cons, List.length_nil]
    rw [hidx, hN]
    omega
  · simp only [RingBuf.push, List.length_append, List.length_cons, List.length_nil]
    rw [hllen, hN]
    omega
  · intro hlt
    simp only [List.length_append, List.length_cons, List.length_nil] at hlt
    have hxs : xs.length < N := by omega
    have hidx' : r.idx = xs.length := by
      rw [hidx, Nat.mod_eq_of_lt hxs]
    have hrepl : N - xs.length = (N - (xs.length + 1)) + 1 := by omega
    simp only [RingBuf.push, hpre hxs, hidx']
    rw [List.set_append_right _ _ (Nat.le_refl _), Nat.sub_self, hrepl,
      List.replicate_succ]
    simp
  · intro hge
    simp only [List.length_append, List.length_cons, List.length_nil] at hge ⊢
    rcases Nat.lt_or_ge xs.length N with hxs | hxs
    · -- the push that fills the buffer: `|xs| + 1 = N`
      have hfill : xs.length + 1 = N := by omega
      have hidx' : r.idx = xs.length := by
        rw [hidx, Nat.mod_eq_of_lt hxs]
      have hrepl : N - xs.length = 1 := by omega
      have hmod : (r.idx + 1) % N = 0 := by
        rw [hidx', hfill]; exact Nat.mod_self _
      simp only [RingBuf.push, hpre hxs, hidx', hmod, List.rotate_zero]
      rw [hrepl, List.set_append_right _ _ (Nat.le_refl _), Nat.sub_self]
      simp [lastW, hfill]
    · -- buffer already full before the push
      have hidxlt : r.idx < r.ring.length := by
        rw [hlen, hidx]; exact Nat.mod_lt _ (by omega)
      have key := set_rotate_succ r.ring r.idx x hidxlt
      rw [hlen] at key
      simp only [RingBuf.push]
      rw [key, hfull hxs]
      have h1 : (lastW xs).tail = xs.drop (xs.length + 1 - N) := by
        rw [lastW, List.tail_drop]
        congr 1
        omega
      have h2 : lastW (xs ++ [x]) = xs.drop (xs.length + 1 - N) ++ [x] := by
        rw [lastW]
        simp only [List.length_append, List.length_cons, List.length_nil]
        rw [List.drop_append_of_le_length (by omega)]
      rw [h1, h2]

lemma ringInv_pushAll (xs : List Nat) : RingInv xs (pushAll xs) := by
  induction xs using List.reverseRecOn with
  | nil => exact ringInv_nil
  | append_singleton xs x ih =>
    have : pushAll (xs ++ [x]) = (pushAll xs).push x := by
      simp [pushAll, List.foldl_append]
    rw [this]
    exact ringInv_push ih x

lemma pushAll_llen (xs : List Nat) : (pushAll xs).llen = min xs.length N :=
  (ringInv_pushAll xs).2.2.1

/-- The valid window is a permutation of the last `min |xs| N` samples. -/
lemma window_perm (xs : List Nat) : ((pushAll xs).window).Perm (lastW xs) := by
  obtain ⟨hlen, hidx, hllen, hpre, hfull⟩ := ringInv_pushAll xs
  rcases Nat.lt_or_ge xs.length N with hxs | hxs
  · have hmin : min xs.length N = xs.length := Nat.min_eq_left (Nat.le_of_lt hxs)
    have hwin : (pushAll xs).window = xs := by
      rw [RingBuf.window, hllen, hmin, hpre hxs, List.take_left' rfl]
    have hlast : lastW xs = xs := by
      rw [lastW, Nat.sub_eq_zero_of_le (Nat.le_of_lt hxs), List.drop_zero]
    rw [hwin, hlast]
  · have hmin : min xs.length N = N := Nat.min_eq_right hxs
    have hwin : (pushAll xs).window = (pushAll xs).ring := by
      rw [RingBuf.window, hllen, hmin, List.take_of_length_le (Nat.le_of_eq hlen)]
    rw [hwin, ← hfull hxs]
    exact (List.rotate_perm _ _).symm

lemma window_sum (xs : List Nat) : ((pushAll xs).window).sum = (lastW xs).sum :=
  (window_perm xs).sum_eq

lemma pysort_eq_of_perm {l₁ l₂ : List Nat} (h : l₁.Perm l₂) : pysort l₁ = pysort l₂ :=
  List.eq_of_perm_of_sorted
    ((List.perm_insertionSort _ l₁).trans (h.trans (List.perm_insertionSort _ l₂).symm))
    (List.sorted_insertionSort _ l₁) (List.sorted_insertionSort _ l₂)

lemma window_pysort (xs : List Nat) :
    pysort ((pushAll xs).window) = pysort (lastW xs) :=
  pysort_eq_of_perm (window_perm xs)

lemma cmdA_id (s : StateA) (c : String)
    (h : c ∉ (["1", "2", "3", "4"] : List String)) : cmdA s c = s := by
  simp only [List.mem_cons, List.not_mem_nil, or_false, not_or] at h
  obtain ⟨h1, h2, h3, h4⟩ := h
  simp [cmdA, h1, h2, h3, h4]

lemma cmdB_id (s : StateB) (c : String)
    (h : c ∉ (["1", "2", "3", "4", "5"] : List String)) : cmdB s c = s := by
  simp only [List.mem_cons, List.not_mem_nil, or_false, not_or] at h
  obtain ⟨h1, h2, h3, h4, h5⟩ := h
  simp [cmdB, h1, h2, h3, h4, h5]

/-! ### Elementary facts about the steps, commands and handlers -/

lemma handlerA_valor (s : StateA) (r : Nat) : (handlerA s r).valor = r := rfl

lemma handlerB_valor (s : StateB) (r : Nat) : (handlerB s r).valor = r := rfl

lemma stepA_rb (s : StateA) (v : Nat) : (stepA s v).1.rb = s.rb.push v := by
  simp [stepA, apply_ite Prod.fst, apply_ite StateA.rb]

lemma stepA_ema (s : StateA) (v : Nat) : (stepA s v).1.ema = some (emaNext s.ema v) := by
  simp [stepA, apply_ite Prod.fst, apply_ite StateA.ema]

lemma stepA_count (s : StateA) (v : Nat) :
    (stepA s v).1.count =
      if SKIP ≤ s.count + 1 ∧ (s.show_raw ∨ s.show_avg ∨ s.show_med ∨ s.show_exp)
      then 0 else s.count + 1 := by
  simp only [stepA]
  by_cases h1 : s.show_raw <;> by_cases h2 : s.show_avg <;>
    by_cases h3 : s.show_med <;> by_cases h4 : s.show_exp <;>
    simp [h1, h2, h3, h4] <;> split <;> simp_all

lemma stepA_out (s : StateA) (v : Nat) :
    (stepA s v).2 ≠ none ↔
      (SKIP ≤ s.count + 1 ∧ (s.show_raw ∨ s.show_avg ∨ s.show_med ∨ s.show_exp)) := by
  simp only [stepA]
  by_cases h1 : s.show_raw <;> by_cases h2 : s.show_avg <;>
    by_cases h3 : s.show_med <;> by_cases h4 : s.show_exp <;>
    simp [h1, h2, h3, h4] <;> split <;> simp_all

lemma cmdA_rb (s : StateA) (c : String) : (cmdA s c).rb = s.rb := by
  simp only [cmdA]
  split <;> try rfl
  split <;> try rfl
  split <;> try rfl
  split <;> rfl

lemma stepB_rb (s : StateB) (v : Nat) : (stepB s v).1.rb = s.rb.push v := by
  simp only [stepB]
  split <;> rfl

lemma stepB_modo (s : StateB) (v : Nat) : (stepB s v).1.modo = s.modo := by
  simp only [stepB]
  split <;> rfl

lemma stepB_count (s : StateB) (v : Nat) :
    (stepB s v).1.count = if SKIP ≤ s.count + 1 then 0 else s.count + 1 := by
  simp only [stepB]
  split <;> simp_all

lemma stepB_ema (s : StateB) (v : Nat) :
    (stepB s v).1.ema =
      if 4 ≤ s.modo ∨ s.modo = 5 then
        some (emaNext s.ema
          (if 3 ≤ s.modo ∨ s.modo = 5 then medOf (s.rb.push v).window (s.rb.push v).llen
           else if 2 ≤ s.modo ∨ s.modo = 5 then avgOf (s.rb.push v).window (s.rb.push v).llen
           else v))
      else s.ema := by
  simp only [stepB]
  by_cases h2 : 2 ≤ s.modo ∨ s.modo = 5 <;>
    by_cases h3 : 3 ≤ s.modo ∨ s.modo = 5 <;>
    by_cases h4 : 4 ≤ s.modo ∨ s.modo = 5 <;>
    split <;> simp_all

lemma stepB_out (s : StateB) (v : Nat) :
    (stepB s v).2 = none ↔ ¬ (SKIP ≤ s.count + 1 ∧ (1 ≤ s.modo ∧ s.modo ≤ 5)) := by
  simp only [stepB]
  split
  · rcases Nat.lt_or_ge s.modo 6 with h6 | h6
    · interval_cases hm : s.modo <;> simp_all [lineaB]
    · have : ¬ (s.modo = 1) := by omega
      have h2 : ¬ (s.modo = 2 ∨ s.modo = 3 ∨ s.modo = 4) := by omega
      have h5 : ¬ (s.modo = 5) := by omega
      simp_all [lineaB]
      omega
  · simp_all

lemma cmdB_count (s : StateB) (c : String) : (cmdB s c).count = s.count := by
  simp only [cmdB]
  split <;> try rfl
  split <;> try rfl
  split <;> try rfl
  split <;> try rfl
  split <;> rfl

lemma cmdB_modo_range (s : StateB) (c : String) (h1 : 1 ≤ s.modo) (h2 : s.modo ≤ 5) :
    1 ≤ (cmdB s c).modo ∧ (cmdB s c).modo ≤ 5 := by
  simp only [cmdB]
  split
  · exact ⟨by simp, by simp⟩
  split
  · exact ⟨by simp, by simp⟩
  split
  · exact ⟨by simp, by simp⟩
  split
  · exact ⟨by simp, by simp⟩
  split
  · exact ⟨by simp, by simp⟩
  · exact ⟨h1, h2⟩

/-! ### Run-level lemmas -/

lemma samplesOf_key (c : String) (es : List Ev) :
    samplesOf (Ev.key c :: es) = samplesOf es := rfl

lemma samplesOf_sample (v : Nat) (es : List Ev) :
    samplesOf (Ev.sample v :: es) = v :: samplesOf es := rfl

lemma samplesOf_map (xs : List Nat) : samplesOf (xs.map Ev.sample) = xs := by
  induction xs with
  | nil => rfl
  | cons x xs ih => rw [List.map_cons, samplesOf_sample, ih]

lemma cmdB_rb (s : StateB) (c : String) : (cmdB s c).rb = s.rb := by
  simp only [cmdB]
  split <;> try rfl
  split <;> try rfl
  split <;> try rfl
  split <;> try rfl
  split <;> rfl

lemma runA_rb (es : List Ev) : ∀ s : StateA,
    (runA s es).1.rb = (samplesOf es).foldl RingBuf.push s.rb := by
  induction es with
  | nil => intro s; rfl
  | cons e es ih =>
    intro s
    cases e with
    | key c =>
      rw [samplesOf_key]
      show (runA (cmdA s c) es).1.rb = _
      rw [ih, cmdA_rb]
    | sample v =>
      rw [samplesOf_sample, List.foldl_cons]
      show (runA (stepA (handlerA s v) (handlerA s v).valor).1 es).1.rb = _
      rw [ih, stepA_rb]
      rfl

lemma runB_rb (es : List Ev) : ∀ s : StateB,
    (runB s es).1.rb = (samplesOf es).foldl RingBuf.push s.rb := by
  induction es with
  | nil => intro s; rfl
  | cons e es ih =>
    intro s
    cases e with
    | key c =>
      rw [samplesOf_key]
      show (runB (cmdB s c) es).1.rb = _
      rw [ih, cmdB_rb]
    | sample v =>
      rw [samplesOf_sample, List.foldl_cons]
      show (runB (stepB (handlerB s v) (handlerB s v).valor).1 es).1.rb = _
      rw [ih, stepB_rb]
      rfl

/-- Decimation invariant of the cascading variant: starting from a state with
`count < SKIP` and a valid mode, the `i`-th processed sample (0-indexed)
emits a record exactly when `count + i + 1` is a multiple of `SKIP`. -/
lemma runB_emit (es : List Ev) : ∀ (s : StateB) (i : Nat),
    s.count < SKIP → 1 ≤ s.modo → s.modo ≤ 5 →
    (((runB s es).2.getD i none).isSome = true ↔
      i < (runB s es).2.length ∧ (s.count + i + 1) % SKIP = 0) := by
  induction es with
  | nil =>
    intro s i h1 h2 h3
    simp [runB]
  | cons e es ih =>
    intro s i h1 h2 h3
    cases e with
    | key c =>
      simp only [runB]
      have hr := cmdB_modo_range s c h2 h3
      have := ih (cmdB s c) i (by rw [cmdB_count]; exact h1) hr.1 hr.2
      rw [cmdB_count] at this
      exact this
    | sample v =>
      simp only [runB]
      set s1 := handlerB s v with hs1
      have hval : s1.valor = v := rfl
      have hcnt : s1.count = s.count := rfl
      have hmodo : s1.modo = s.modo := rfl
      have hout : (stepB s1 s1.valor).2 = none ↔
          ¬ (SKIP ≤ s.count + 1 ∧ (1 ≤ s.modo ∧ s.modo ≤ 5)) := by
        rw [stepB_out, hcnt, hmodo]
      have hcnt' : (stepB s1 s1.valor).1.count =
          if SKIP ≤ s.count + 1 then 0 else s.count + 1 := by
        rw [stepB_count, hcnt]
      have hmodo' : (stepB s1 s1.valor).1.modo = s.modo := by
        rw [stepB_modo, hmodo]
      cases i with
      | zero =>
        simp only [List.getD_cons_zero, List.length_cons]
        have hsome : ((stepB s1 s1.valor).2.isSome = true) ↔ (SKIP ≤ s.count + 1) := by
          constructor
          · intro h
            by_contra hno
            have hn : (stepB s1 s1.valor).2 = none := hout.mpr fun hand => hno hand.1
            rw [hn] at h
            simp at h
          · intro h10
            have hne : ¬ ((stepB s1 s1.valor).2 = none) :=
              fun hn => (hout.mp hn) ⟨h10, h2, h3⟩
            cases hc : (stepB s1 s1.valor).2 with
            | none => exact absurd hc hne
            | some a => rfl
        rw [hsome]
        simp only [SKIP] at h1 ⊢
        omega
      | succ j =>
        have hlt : (stepB s1 s1.valor).1.count < SKIP := by
          rw [hcnt']
          simp only [SKIP] at h1 ⊢
          split <;> omega
        have hih := ih (stepB s1 s1.valor).1 j hlt (by rw [hmodo']; exact h2)
          (by rw [hmodo']; exact h3)
        simp only [List.getD_cons_succ, List.length_cons]
        rw [hih, hcnt']
        simp only [SKIP] at h1 ⊢
        split <;> omega

/-- In any mode of depth ≥ median, the value the median stage leaves in
`salida` is `medOf` of the raw window; when the mode reaches the EMA stage,
the EMA update consumes exactly that value. -/
lemma stepB_ema_exp (s : StateB) (v e : Nat) (h4 : 4 ≤ s.modo ∨ s.modo = 5)
    (he : s.ema = some e) :
    (stepB s v).1.ema =
      some (emaUpdate e (medOf ((s.rb.push v).window) ((s.rb.push v).llen))) := by
  have h3 : 3 ≤ s.modo ∨ s.modo = 5 := by
    rcases h4 with h | h
    · left; omega
    · right; exact h
  rw [stepB_ema, if_pos h4, if_pos h3, he]
  rfl

/-- In mode 3, an emitting step prints `RAW:{v} | MED:{m}` with `m` the
median of the raw window just pushed. -/
lemma stepB_mode3_out (s : StateB) (v : Nat) (h3 : s.modo = 3)
    (hc : SKIP ≤ s.count + 1) :
    (stepB s v).2 =
      some ("RAW:" ++ toString v ++ " | MED:" ++
        toString (medOf ((s.rb.push v).window) ((s.rb.push v).llen))) := by
  have hn4 : ¬ (4 ≤ s.modo ∨ s.modo = 5) := by omega
  have hy3 : 3 ≤ s.modo ∨ s.modo = 5 := by omega
  simp only [stepB, hn4, hy3, if_true, if_false, ite_true, ite_false, if_pos, if_neg]
  rw [if_pos hc, h3]
  show lineaB 3 v (medOf ((s.rb.push v).window) ((s.rb.push v).llen)) ("MED") = _
  have h1 : (" | " : String) ++ "MED" ++ ":" = " | MED:" := by decide
  simp only [lineaB]
  norm_num
  calc "RAW:" ++ toString v ++ " | " ++ "MED" ++ ":" ++
        toString (medOf ((s.rb.push v).window) ((s.rb.push v).llen))
      = "RAW:" ++ toString v ++ (" | " ++ "MED" ++ ":") ++
        toString (medOf ((s.rb.push v).window) ((s.rb.push v).llen)) := by
        simp [String.append_assoc]
    _ = _ := by rw [h1]

/-! ### The claims -/

/-- Claim C1 (corrected).  As stated the claim is false: in the cascading
variant the median stage reads the raw `window`, not the moving-average
stage's output (which it overwrites).  Amended: in mode 3 the emitted MED
value is the median of the raw window, and only the EMA stage (depth ≥ 4 or
mode 5) consumes the previous stage's output — the raw-window median. -/
theorem C1_cascade_amended :
    (∀ (s : StateB) (v : Nat), s.modo = 3 → SKIP ≤ s.count + 1 →
      (stepB s v).2 =
        some ("RAW:" ++ toString v ++ " | MED:" ++
          toString (medOf ((s.rb.push v).window) ((s.rb.push v).llen)))) ∧
    (∀ (s : StateB) (v e : Nat), (4 ≤ s.modo ∨ s.modo = 5) → s.ema = some e →
      (stepB s v).1.ema =
        some (emaUpdate e (medOf ((s.rb.push v).window) ((s.rb.push v).llen)))) :=
  ⟨stepB_mode3_out, stepB_ema_exp⟩

/-- Witness for C1: a concrete emitting mode-3 step. -/
theorem C1_cascade_witness :
    (stepB { initB with modo := 3, count := 9 } 42).2 =
      some ("RAW:" ++ toString 42 ++ " | MED:" ++
        toString (medOf ((({ initB with modo := 3, count := 9 } : StateB).rb.push 42).window)
          ((({ initB with modo := 3, count := 9 } : StateB).rb.push 42).llen))) :=
  C1_cascade_amended.1 { initB with modo := 3, count := 9 } 42 rfl (by decide)

/-- Counterexample for C1 as stated: running mode 3 on `cexSeq`, the 10th
sample emits `RAW:0 | MED:0` — the median 0 of the raw window — while the
spec's avg→median cascade (median of the moving-average window) gives 20. -/
theorem C1_cascade_counterexample :
    (runB initB (Ev.key "3" :: cexSeq.map Ev.sample)).2.getD 9 none =
        some ("RAW:0 | MED:0") ∧
      medOf ((pushAll cexSeq).window) ((pushAll cexSeq).llen) = 0 ∧
      specCascadeMed cexSeq = 20 ∧ (0 : Nat) ≠ 20 := by decide

/-- Claim C2 (corrected).  As stated the claim is false on the code: the
10th sample is pushed before the filters run, so at sample 10 the window is
`{105,115,95,100,120}` (not `{90,105,115,95,100}`), the moving average is
107 (not 101), and mode 3 emits only `RAW` and `MED` fields (no `PROM`).
The actual emitted record is `RAW:120 | MED:105`. -/
theorem C2_scenario_amended :
    (runB initB (Ev.key "3" :: testSeq.map Ev.sample)).2 =
        [none, none, none, none, none, none, none, none, none,
          some ("RAW:120 | MED:105")] ∧
      (pushAll testSeq).window = [105, 115, 95, 100, 120] ∧
      avgOf ((pushAll testSeq).window) ((pushAll testSeq).llen) = 107 ∧
      medOf ((pushAll testSeq).window) ((pushAll testSeq).llen) = 105 := by
  decide

/-- Counterexample for C2 as stated: at the 10th sample of the scenario the
window does not contain 90, the average is 107 ≠ 101, and the emitted
record is `RAW:120 | MED:105`, with no PROM field. -/
theorem C2_scenario_counterexample :
    (runB initB (Ev.key "3" :: testSeq.map Ev.sample)).2.getD 9 none =
        some ("RAW:120 | MED:105") ∧
      ¬ (90 ∈ (pushAll testSeq).window) ∧
      avgOf ((pushAll testSeq).window) ((pushAll testSeq).llen) = 107 ∧
      (107 : Nat) ≠ 101 := by decide

/-- Claim C3 (corrected).  The cascading variant does emit exactly at the
`K`-th, `2K`-th, … processed samples (proved here for every event
interleaving).  The flags variant does not: with all toggles off nothing is
emitted at the threshold and the counter keeps counting, so a later toggle
makes the emission land off the `K`-grid (see the counterexample). -/
theorem C3_decimation_amended : ∀ (evs : List Ev) (i : Nat),
    ((runB initB evs).2.getD i none).isSome = true ↔
      i < (runB initB evs).2.length ∧ (i + 1) % SKIP = 0 := by
  intro evs i
  have h := runB_emit evs initB i (by decide) (by decide) (by decide)
  simpa [initB] using h

/-- Counterexample for C3 as stated in the flags variant: ten samples with
all toggles off emit nothing (so the 10th emits nothing), and after toggling
RAW on, the 11th sample — not a multiple of `SKIP = 10` — emits. -/
theorem C3_decimation_counterexample :
    (runA initA (List.replicate 10 (Ev.sample 0) ++ [Ev.key "1", Ev.sample 0])).2 =
      List.replicate 10 none ++ [some ("RAW:0")] := by decide

/-- Claim C4 (corrected).  In the flags variant the window is pushed and all
three filters are computed — in particular the EMA state is updated — on
every processed sample regardless of the toggles.  In the cascading variant
each stage runs only when the mode requires it: the EMA state changes only
when `modo >= 4 or modo == 5`, and then it consumes the cascade value. -/
theorem C4_filters_amended :
    (∀ (s : StateA) (v : Nat),
        (stepA s v).1.rb = s.rb.push v ∧ (stepA s v).1.ema = some (emaNext s.ema v)) ∧
    (∀ (s : StateB) (v : Nat),
        (stepB s v).1.ema =
          if 4 ≤ s.modo ∨ s.modo = 5 then
            some (emaNext s.ema
              (if 3 ≤ s.modo ∨ s.modo = 5 then
                medOf ((s.rb.push v).window) ((s.rb.push v).llen)
               else if 2 ≤ s.modo ∨ s.modo = 5 then
                avgOf ((s.rb.push v).window) ((s.rb.push v).llen)
               else v))
          else s.ema) :=
  ⟨fun s v => ⟨stepA_rb s v, stepA_ema s v⟩, fun s v => stepB_ema s v⟩

/-- Counterexample for C4 as stated: in the cascading variant's default mode
1, processing a sample leaves the EMA state untouched (`none`), while the
flags variant initializes it to the sample. -/
theorem C4_filters_counterexample :
    (runB initB [Ev.sample 100]).1.ema = none ∧
      (runA initA [Ev.sample 100]).1.ema = some 100 ∧
      (none : Option Nat) ≠ some 100 := by decide

/-- Claim C5 (corrected).  First EMA output equals the input exactly, and
the embedding is a pure function of the sample sequence (reproducibility).
But the update is computed in IEEE-754 binary64 arithmetic with the double
nearest 0.15, which differs from exact truncation of `0.15*v + 0.85*e`:
see the counterexample.  The amended update law uses `emaUpdate`, the exact
model of the float computation, and `ALPHA64` is correctly rounded. -/
theorem C5_ema_amended :
    (∀ v : Nat, (runA initA [Ev.sample v]).1.ema = some v) ∧
    (∀ (s : StateA) (v e : Nat), s.ema = some e →
        (stepA s v).1.ema = some (emaUpdate e v)) ∧
    (∀ (s : StateB) (v e : Nat), (4 ≤ s.modo ∨ s.modo = 5) → s.ema = some e →
        (stepB s v).1.ema =
          some (emaUpdate e (medOf ((s.rb.push v).window) ((s.rb.push v).llen)))) ∧
    ALPHA64.val < 3 / 20 ∧ 3 / 20 - ALPHA64.val < 1 / 2 ^ 56 := by
  refine ⟨?_, ?_, ?_, ALPHA64_correct.2.2.1, ALPHA64_correct.2.2.2⟩
  · intro v
    show (stepA (handlerA initA v) (handlerA initA v).valor).1.ema = some v
    rw [stepA_ema]
    rfl
  · intro s v e he
    rw [stepA_ema, he]
    rfl
  · intro s v e h4 he
    exact stepB_ema_exp s v e h4 he

/-- Witness for C5: one concrete EMA update through the theorem. -/
theorem C5_ema_witness :
    (stepA { initA with ema := some 21 } 1).1.ema = some (emaUpdate 21 1) :=
  C5_ema_amended.2.1 { initA with ema := some 21 } 1 21 rfl

/-- Counterexample for C5 as stated: from fresh state, samples 21 then 1
give EMA 17, but the exact value `0.15*1 + (1-0.15)*21` is the integer 18,
so truncation toward zero of the exact expression gives 18 ≠ 17. -/
theorem C5_ema_counterexample :
    emaUpdate 21 1 = 17 ∧
      (runA initA [Ev.sample 21, Ev.sample 1]).1.ema = some 17 ∧
      ((3 / 20 : ℚ) * 1 + (1 - 3 / 20) * 21 = 18) ∧
      (17 : Nat) ≠ 18 :=
  ⟨by decide, by decide, by norm_num, by decide⟩

/-- Claim C6 (confirmed): in the flags variant the decimation counter is
incremented on every processed sample regardless of the toggles, it resets
to zero exactly when a record is actually emitted (threshold reached and at
least one toggle on), and reaching the threshold with all toggles off does
not reset it. -/
theorem C6_flags_counter (s : StateA) (v : Nat) :
    ((stepA s v).1.count =
      if SKIP ≤ s.count + 1 ∧ (s.show_raw ∨ s.show_avg ∨ s.show_med ∨ s.show_exp)
      then 0 else s.count + 1) ∧
    ((stepA s v).2 ≠ none ↔
      SKIP ≤ s.count + 1 ∧ (s.show_raw ∨ s.show_avg ∨ s.show_med ∨ s.show_exp)) :=
  ⟨stepA_count s v, stepA_out s v⟩

/-- Claim C7 (confirmed): the buffer reached by either variant's run is
`pushAll` of the raw samples, and the moving average over it equals
`sum(last N samples) / N` (truncating) once `N` samples were processed, and
the sum of all samples so far divided by their count before that. -/
theorem C7_moving_average :
    (∀ (xs : List Nat) (es : List Ev), samplesOf es = xs →
        (runA initA es).1.rb = pushAll xs ∧ (runB initB es).1.rb = pushAll xs) ∧
    (∀ xs : List Nat,
        avgOf ((pushAll xs).window) ((pushAll xs).llen) =
          if N ≤ xs.length then (lastW xs).sum / N else xs.sum / xs.length) := by
  constructor
  · intro xs es h
    constructor
    · rw [runA_rb, h]; rfl
    · rw [runB_rb, h]; rfl
  · intro xs
    simp only [avgOf]
    rw [window_sum, pushAll_llen]
    rcases Nat.lt_or_ge xs.length N with hlt | hge
    · rw [if_neg (by omega), Nat.min_eq_left (Nat.le_of_lt hlt)]
      rw [lastW, Nat.sub_eq_zero_of_le (Nat.le_of_lt hlt), List.drop_zero]
    · rw [if_pos hge, Nat.min_eq_right hge]

/-- Witness for C7: a seven-sample run; the average over the full window is
the sum of the last five samples divided by five. -/
theorem C7_moving_average_witness :
    ((runA initA (List.map Ev.sample [31, 41, 59, 26, 53, 58, 97])).1.rb =
        pushAll [31, 41, 59, 26, 53, 58, 97] ∧
      (runB initB (List.map Ev.sample [31, 41, 59, 26, 53, 58, 97])).1.rb =
        pushAll [31, 41, 59, 26, 53, 58, 97]) ∧
    avgOf ((pushAll [31, 41, 59, 26, 53, 58, 97]).window)
        ((pushAll [31, 41, 59, 26, 53, 58, 97]).llen) = 58 :=
  ⟨C7_moving_average.1 [31, 41, 59, 26, 53, 58, 97] _ (by decide),
   by
    rw [C7_moving_average.2 [31, 41, 59, 26, 53, 58, 97]]
    decide⟩

/-- Claim C8 (confirmed): the median is the element at index `llen / 2` of
the ascending sort of the (multiset of) windowed samples; for a full window
the fill is `N = 5` and the index is 2, the exact middle. -/
theorem C8_median (xs : List Nat) :
    medOf ((pushAll xs).window) ((pushAll xs).llen) =
      (pysort (lastW xs)).getD (min xs.length N / 2) 0 ∧
    (N ≤ xs.length →
      (pushAll xs).llen / 2 = 2 ∧
      medOf ((pushAll xs).window) ((pushAll xs).llen) = (pysort (lastW xs)).getD 2 0) := by
  have h1 : medOf ((pushAll xs).window) ((pushAll xs).llen) =
      (pysort (lastW xs)).getD (min xs.length N / 2) 0 := by
    simp only [medOf]
    rw [window_pysort, pushAll_llen]
  refine ⟨h1, fun h => ?_⟩
  have hm : min xs.length N = N := Nat.min_eq_right h
  constructor
  · rw [pushAll_llen, hm]
    rfl
  · rw [h1, hm]
    rfl

/-- Witness for C8: six samples, so the window is full and the median is
the sorted middle element of the last five. -/
theorem C8_median_witness :
    medOf ((pushAll [2, 7, 1, 8, 2, 8]).window) ((pushAll [2, 7, 1, 8, 2, 8]).llen) =
      (pysort (lastW [2, 7, 1, 8, 2, 8])).getD 2 0 :=
  ((C8_median [2, 7, 1, 8, 2, 8]).2 (by decide)).2

/-- Claim C9 (confirmed): in both variants a command token outside the
recognized single-character selectors leaves the mode state (and every other
global) unchanged, and only recognized tokens can change the state. -/
theorem C9_commands :
    (∀ (s : StateA) (c : String), c ∉ (["1", "2", "3", "4"] : List String) →
      cmdA s c = s) ∧
    (∀ (s : StateA) (c : String), cmdA s c ≠ s →
      c ∈ (["1", "2", "3", "4"] : List String)) ∧
    (∀ (s : StateB) (c : String), c ∉ (["1", "2", "3", "4", "5"] : List String) →
      cmdB s c = s) ∧
    (∀ (s : StateB) (c : String), cmdB s c ≠ s →
      c ∈ (["1", "2", "3", "4", "5"] : List String)) := by
  refine ⟨fun s c h => cmdA_id s c h, ?_, fun s c h => cmdB_id s c h, ?_⟩
  · intro s c hne
    by_contra h
    exact hne (cmdA_id s c h)
  · intro s c hne
    by_contra h
    exact hne (cmdB_id s c h)

/-- Witness for C9: the unrecognized tokens `"x"` and `"10"` change nothing. -/
theorem C9_commands_witness :
    cmdA initA "x" = initA ∧ cmdB initB "10" = initB :=
  ⟨C9_commands.1 initA "x" (by decide), C9_commands.2.2.1 initB "10" (by decide)⟩

/-- Claim C10 (confirmed): the timer callback writes the latest reading into
`valor`, sets the `new` flag, and changes nothing else — no window, filter
state, mode/toggle, or counter mutation, and it produces no output. -/
theorem C10_producer_frame :
    (∀ (s : StateA) (r : Nat),
      (handlerA s r).valor = r ∧ (handlerA s r).new = true ∧
      (handlerA s r).rb = s.rb ∧ (handlerA s r).ema = s.ema ∧
      (handlerA s r).count = s.count ∧
      (handlerA s r).show_raw = s.show_raw ∧ (handlerA s r).show_avg = s.show_avg ∧
      (handlerA s r).show_med = s.show_med ∧ (handlerA s r).show_exp = s.show_exp) ∧
    (∀ (s : StateB) (r : Nat),
      (handlerB s r).valor = r ∧ (handlerB s r).new = true ∧
      (handlerB s r).rb = s.rb ∧ (handlerB s r).ema = s.ema ∧
      (handlerB s r).count = s.count ∧ (handlerB s r).modo = s.modo) :=
  ⟨fun _ _ => ⟨rfl, rfl, rfl, rfl, rfl, rfl, rfl, rfl, rfl⟩,
   fun _ _ => ⟨rfl, rfl, rfl, rfl, rfl, rfl⟩⟩

end FiltroEcg
